import Mathlib

set_option maxHeartbeats 1000000

/-!
Shallow embedding of the Classic-EMU repository scripts
(fetch_repo_details.py, fetch_repo_details_inventory.py, fetch_repo_list.py)
and proofs about their pagination, rate-limit, retry, counting, startup and
report-writing behaviour.  Network effects are made explicit: the environment
supplies the outcome of each HTTP request, the clock supplies the value of the
integer time at each request, and sleeps, error-log appends and console prints
are returned as traces.
-/

/-- HTTP response as the scripts consume it: status code, whether the lowered
body text contains the phrase rate limit, the X-RateLimit-Remaining and
X-RateLimit-Reset headers, the raw body text, and the parsed JSON body. -/
structure HttpResponse (α : Type) where
  status : Nat
  rateLimitInText : Bool
  remaining : Option String
  reset : Option Int
  text : String
  body : α
deriving DecidableEq

/-- Outcome of one requests.get call seen by github_api_get in
fetch_repo_details.py: a response, a connection-level exception
(ConnectionError or ChunkedEncodingError), or any other exception. -/
inductive ReqEvent (α : Type) where
  | resp (r : HttpResponse α)
  | connErr (msg : String)
  | otherErr (msg : String)
deriving DecidableEq

/-- Outcome of one requests.get call seen by github_api_get in
fetch_repo_details_inventory.py; that function catches only connection-level
exceptions and requests.RequestException, so only those are modelled. -/
inductive InvEvent (α : Type) where
  | resp (r : HttpResponse α)
  | connErr (msg : String)
deriving DecidableEq

/-- One line appended to the error-log file by log_error. -/
inductive LogEntry where
  | failedGet (status : Nat) (text : String)
  | connRetry (msg : String) (retry : Nat) (maxRetries : Nat)
  | unexpected (msg : String)
  | maxRetriesExceeded
  | repoError (repoName : String) (msg : String)
deriving DecidableEq

/-- One console print emitted by github_api_get in
fetch_repo_details_inventory.py. -/
inductive PrintMsg where
  | rateLimitSleep (seconds : Int)
  | networkError (attempt : Nat) (msg : String)
  | requestFailed (status : Nat)
deriving DecidableEq

/-- Result of github_api_get in fetch_repo_details.py together with its
effect traces: parsed body or None, number of requests.get calls performed,
sleep durations in order, and error-log appends in order. -/
structure DetailsResult (α : Type) where
  result : Option α
  requests : Nat
  sleeps : List Int
  logs : List LogEntry
deriving DecidableEq

/-- Loop of github_api_get in fetch_repo_details.py (while retries < max_retries).
fuel bounds the number of loop iterations, since endless rate limiting loops
forever in the Python code; env i is the outcome of the i-th requests.get call
and now i the integer clock at that call.  A 403 whose text mentions the rate
limit sleeps max(reset - now, 1) (reset defaulting to now + 60) and continues
without touching retries; any other non-200/201 status logs and returns None;
a connection error increments retries, logs, and sleeps 5 * retries; any other
exception logs and returns None; when retries reaches max_retries the loop
exits, logs, and returns None. -/
def githubApiGetGo (env : Nat → ReqEvent α) (now : Nat → Int) (maxRetries : Nat) :
    Nat → Nat → Nat → List Int → List LogEntry → DetailsResult α
  | 0, i, _, sleeps, logs => ⟨none, i, sleeps, logs⟩
  | fuel + 1, i, r, sleeps, logs =>
    if r < maxRetries then
      match env i with
      | .resp resp =>
        if resp.status = 403 ∧ resp.rateLimitInText = true then
          githubApiGetGo env now maxRetries fuel (i + 1) r
            (sleeps ++ [max (resp.reset.getD (now i + 60) - now i) 1]) logs
        else if resp.status ≠ 200 ∧ resp.status ≠ 201 then
          ⟨none, i + 1, sleeps, logs ++ [.failedGet resp.status resp.text]⟩
        else
          ⟨some resp.body, i + 1, sleeps, logs⟩
      | .connErr msg =>
        githubApiGetGo env now maxRetries fuel (i + 1) (r + 1)
          (sleeps ++ [((5 * (r + 1) : Nat) : Int)])
          (logs ++ [.connRetry msg (r + 1) maxRetries])
      | .otherErr msg =>
        ⟨none, i + 1, sleeps, logs ++ [.unexpected msg]⟩
    else
      ⟨none, i, sleeps, logs ++ [.maxRetriesExceeded]⟩

/-- github_api_get of fetch_repo_details.py at its default max_retries = 5,
starting with retries = 0 and empty traces. -/
def githubApiGet (env : Nat → ReqEvent α) (now : Nat → Int) (fuel : Nat) :
    DetailsResult α :=
  githubApiGetGo env now 5 fuel 0 0 [] []

/-- Result of github_api_get in fetch_repo_details_inventory.py.  The logs
field records error-log appends; that function never calls log_error, so every
execution path leaves it empty, and its diagnostics appear in prints. -/
structure InvResult (α : Type) where
  result : Option α
  requests : Nat
  sleeps : List Int
  prints : List PrintMsg
  logs : List LogEntry
deriving DecidableEq

/-- Loop of github_api_get in fetch_repo_details_inventory.py
(for attempt in range(retries)).  rem is the number of loop iterations left and
i the current loop index (= number of requests already made); every iteration,
including a rate-limit continue, advances the loop variable.  A 403 with the
X-RateLimit-Remaining header equal to the string 0 prints and sleeps
reset - now (reset defaulting to now + 60, with no floor) and continues; a
4xx/5xx status makes raise_for_status raise, which is caught, printed, and
breaks out, returning the empty sentinel; a 2xx returns the body; a connection
error prints and sleeps 2 ^ attempt; loop exhaustion returns the sentinel. -/
def githubApiGetInvGo (env : Nat → InvEvent α) (now : Nat → Int) :
    Nat → Nat → List Int → List PrintMsg → InvResult α
  | 0, i, sleeps, prints => ⟨none, i, sleeps, prints, []⟩
  | rem + 1, i, sleeps, prints =>
    match env i with
    | .resp resp =>
      if resp.status = 403 ∧ resp.remaining = some "0" then
        githubApiGetInvGo env now rem (i + 1)
          (sleeps ++ [resp.reset.getD (now i + 60) - now i])
          (prints ++ [.rateLimitSleep (resp.reset.getD (now i + 60) - now i)])
      else if 400 ≤ resp.status ∧ resp.status < 600 then
        ⟨none, i + 1, sleeps, prints ++ [.requestFailed resp.status], []⟩
      else
        ⟨some resp.body, i + 1, sleeps, prints, []⟩
    | .connErr msg =>
      githubApiGetInvGo env now rem (i + 1)
        (sleeps ++ [((2 ^ i : Nat) : Int)])
        (prints ++ [.networkError (i + 1) msg])

/-- github_api_get of fetch_repo_details_inventory.py at its default
retries = 3.  The None result models the empty-list sentinel returned by the
Python function. -/
def githubApiGetInv (env : Nat → InvEvent α) (now : Nat → Int) : InvResult α :=
  githubApiGetInvGo env now 3 0 [] []

/-- Result of a pagination loop in get_repos: the page numbers requested, in
order, and the accumulated repository list. -/
structure RepoPagResult (α : Type) where
  requests : List Nat
  repos : List α
deriving DecidableEq

/-- Pagination loop of get_repos in fetch_repo_details.py (per_page = 100),
which is also, line for line, the loop of get_repos in
fetch_repo_details_inventory.py.  fetch page abstracts the github_api_get call
for that page number: none models the falsy failure sentinel.  The loop breaks
on a falsy result (None or empty list), appends the page otherwise, and breaks
after appending when the page is short. -/
def getReposGo (fetch : Nat → Option (List α)) (perPage : Nat) :
    Nat → Nat → List α → List Nat → RepoPagResult α
  | 0, _, acc, reqs => ⟨reqs, acc⟩
  | fuel + 1, page, acc, reqs =>
    match fetch page with
    | none => ⟨reqs ++ [page], acc⟩
    | some data =>
      if data.isEmpty then ⟨reqs ++ [page], acc⟩
      else if data.length < perPage then ⟨reqs ++ [page], acc ++ data⟩
      else getReposGo fetch perPage fuel (page + 1) (acc ++ data) (reqs ++ [page])

/-- get_repos, starting from page 1 with page size 100. -/
def getRepos (fetch : Nat → Option (List α)) (fuel : Nat) : RepoPagResult α :=
  getReposGo fetch 100 fuel 1 [] []

/-- Result of get_github_repos in fetch_repo_list.py: page numbers requested,
sleep durations, and the accumulated repository list. -/
structure ListPagResult (α : Type) where
  requests : List Nat
  sleeps : List Int
  repos : List α
deriving DecidableEq

/-- A plain 200 response with the given body and no rate-limit headers. -/
def okResp (l : List α) : HttpResponse (List α) :=
  ⟨200, false, none, none, "", l⟩

/-- Loop of get_github_repos in fetch_repo_list.py.  env i is the response to
the i-th requests.get call (this function has no exception handling) and page
the current value of the page query parameter.  A 403 that merely carries the
X-RateLimit-Remaining header sleeps max(reset - now, 1) (reset defaulting to
0) and retries the same page; any other non-200 status breaks; an empty body
breaks; otherwise the body is appended and page is incremented.  There is no
short-page check: only an empty page or an error stops the loop. -/
def getGithubReposGo (env : Nat → HttpResponse (List α)) (now : Nat → Int) :
    Nat → Nat → Nat → List α → List Nat → List Int → ListPagResult α
  | 0, _, _, acc, reqs, sleeps => ⟨reqs, sleeps, acc⟩
  | fuel + 1, i, page, acc, reqs, sleeps =>
    if (env i).status = 403 ∧ (env i).remaining.isSome = true then
      getGithubReposGo env now fuel (i + 1) page acc (reqs ++ [page])
        (sleeps ++ [max ((env i).reset.getD 0 - now i) 1])
    else if (env i).status ≠ 200 then ⟨reqs ++ [page], sleeps, acc⟩
    else if (env i).body.isEmpty then ⟨reqs ++ [page], sleeps, acc⟩
    else
      getGithubReposGo env now fuel (i + 1) (page + 1) (acc ++ (env i).body)
        (reqs ++ [page]) sleeps

/-- get_github_repos, starting from page 1. -/
def getGithubRepos (env : Nat → HttpResponse (List α)) (now : Nat → Int)
    (fuel : Nat) : ListPagResult α :=
  getGithubReposGo env now fuel 0 1 [] [] []

/-- Issue item as the scripts read it: the only consulted property is whether
the JSON object carries the pull_request marker key. -/
structure Issue where
  hasPullRequest : Bool
deriving DecidableEq

/-- Inner count_issues loop of get_issue_counts in fetch_repo_details.py
(per_page = 100): paginates the issues endpoint, adding per page the number of
items without the pull_request key, stopping at a falsy page or after a short
page. -/
def countIssuesGo (fetch : Nat → Option (List Issue)) :
    Nat → Nat → Nat → Nat
  | 0, _, count => count
  | fuel + 1, page, count =>
    match fetch page with
    | none => count
    | some issues =>
      if issues.isEmpty then count
      else
        if issues.length < 100 then
          count + (issues.filter (fun i => !i.hasPullRequest)).length
        else
          countIssuesGo fetch fuel (page + 1)
            (count + (issues.filter (fun i => !i.hasPullRequest)).length)

/-- count_issues, starting from page 1 with count 0. -/
def countIssues (fetch : Nat → Option (List Issue)) (fuel : Nat) : Nat :=
  countIssuesGo fetch fuel 1 0

/-- get_issue_counts of fetch_repo_details_inventory.py: each endpoint is hit
once (the sentinel being the empty list), the items carrying the pull_request
key are filtered out, and the lengths are returned. -/
def getIssueCountsInv (openIssues closedIssues : List Issue) : Nat × Nat :=
  ((openIssues.filter (fun i => !i.hasPullRequest)).length,
   (closedIssues.filter (fun i => !i.hasPullRequest)).length)

/-- Python truthiness of an optional list: None and the empty list are falsy. -/
def optTruthy : Option (List α) → Bool
  | none => false
  | some l => !l.isEmpty

/-- Detail record fetched per closed pull request; merged is the truthiness of
pr_data.get applied to merged_at. -/
structure PrDetail where
  merged : Bool
deriving DecidableEq

/-- Merged-PR counting loop of get_pr_counts in fetch_repo_details.py:
paginates the closed pulls (per_page = 100) and, for each one, fetches its
detail record and counts it when the record is truthy and carries a truthy
merged_at. -/
def mergedGo (closedPages : Nat → Option (List Nat))
    (prDetail : Nat → Option PrDetail) :
    Nat → Nat → Nat → Nat
  | 0, _, merged => merged
  | fuel + 1, page, merged =>
    match closedPages page with
    | none => merged
    | some prs =>
      if prs.isEmpty then merged
      else
        if prs.length < 100 then
          merged + (prs.filter (fun n =>
            match prDetail n with
            | some d => d.merged
            | none => false)).length
        else
          mergedGo closedPages prDetail fuel (page + 1)
            (merged + (prs.filter (fun n =>
              match prDetail n with
              | some d => d.merged
              | none => false)).length)

/-- get_pr_counts of fetch_repo_details.py.  openProbe and closedProbe are the
responses to the two per_page = 1 requests (pull requests stand for their
numbers); closedPages feeds the merged-PR pagination and prDetail the
per-pull-request detail fetch.  Returns (open count, closed count, merged
count), the first two being lengths of the probes when truthy and 0 otherwise. -/
def getPrCountsD (openProbe closedProbe : Option (List Nat))
    (closedPages : Nat → Option (List Nat)) (prDetail : Nat → Option PrDetail)
    (fuel : Nat) : Nat × Nat × Nat :=
  ((if optTruthy openProbe then (openProbe.getD []).length else 0),
   (if optTruthy closedProbe then (closedProbe.getD []).length else 0),
   (if optTruthy closedProbe then mergedGo closedPages prDetail fuel 1 0 else 0))

/-- Total Releases column in both detail scripts: the length of the
per_page = 1 releases probe when truthy, else 0. -/
def totalReleases (releases : Option (List α)) : Nat :=
  if optTruthy releases then (releases.getD []).length else 0

/-- Per-repository loop of main in fetch_repo_details.py and
fetch_repo_details_inventory.py: agg r is the aggregation of repository r,
either a finished output row or the exception it raised; a row is written on
success, and on failure one error-log entry is appended and the loop
continues with the next repository. -/
def processRepos (name : ρ → String) (agg : ρ → Except String σ) :
    List ρ → List σ × List LogEntry
  | [] => ([], [])
  | r :: rest =>
    match agg r with
    | .ok row =>
      ((processRepos name agg rest).1.cons row, (processRepos name agg rest).2)
    | .error e =>
      ((processRepos name agg rest).1,
       (processRepos name agg rest).2.cons (.repoError (name r) e))

/-- Python truthiness of an optional string (os.getenv result): None and the
empty string are falsy. -/
def falsyOpt : Option String → Bool
  | none => true
  | some s => s.isEmpty

/-- How a script reacts to its configuration at startup: terminate the process
with the given exit code after printing the given message, or proceed to the
API work. -/
inductive StartupAction where
  | exitWith (code : Nat) (msg : String)
  | proceed
deriving DecidableEq

/-- Startup check of fetch_repo_details.py, performed at the top of main: only
ORG_NAME is tested; when it is falsy the script prints and returns from main,
ending the process normally with exit code 0; GITHUB_TOKEN is never tested. -/
def detailsMainStartup (org _token : Option String) : StartupAction :=
  if falsyOpt org then .exitWith 0 "ORG_NAME not set in .env file." else .proceed

/-- Startup check of fetch_repo_details_inventory.py, performed at module load
before any request: when GH_PAT or GH_ORG is falsy the script prints and calls
exit(1). -/
def inventoryStartup (org token : Option String) : StartupAction :=
  if falsyOpt token || falsyOpt org then
    .exitWith 1 "GH_PAT or GH_ORG not set. Please provide them in GitHub Secrets or a .env file."
  else .proceed

/-- Startup check of fetch_repo_list.py, performed at module load before any
request: when GH_ORG or GH_PAT is falsy (after the .env fallback) the script
prints, logs, and calls exit(1). -/
def listStartup (org token : Option String) : StartupAction :=
  if falsyOpt org || falsyOpt token then
    .exitWith 1 "Error: Please set GH_ORG and GH_PAT as GitHub Secrets or in your .env file."
  else .proceed

/-- Concatenation of pages start, start + 1, ..., start + n - 1. -/
def concatPages (pg : Nat → List α) (start n : Nat) : List α :=
  ((List.range' start n).map pg).flatten

/-- Whether an event is a response that github_api_get of
fetch_repo_details.py treats as rate limited. -/
def isRateLimitedEvent : ReqEvent α → Bool
  | .resp r => decide (r.status = 403 ∧ r.rateLimitInText = true)
  | _ => false

/-- Whether an event is a response that github_api_get of
fetch_repo_details_inventory.py treats as rate limited. -/
def isRateLimitedInv : InvEvent α → Bool
  | .resp r => decide (r.status = 403 ∧ r.remaining = some "0")
  | _ => false

theorem concatPages_zero (pg : Nat → List α) (start : Nat) :
    concatPages pg start 0 = [] := rfl

theorem concatPages_succ (pg : Nat → List α) (start n : Nat) :
    concatPages pg start (n + 1) = pg start ++ concatPages pg (start + 1) n := by
  simp [concatPages, List.range'_succ]

theorem concatPages_concat (pg : Nat → List α) :
    ∀ (n start : Nat),
      concatPages pg start (n + 1) = concatPages pg start n ++ pg (start + n) := by
  intro n
  induction n with
  | zero => intro start; simp [concatPages_succ, concatPages_zero]
  | succ n ih =>
    intro start
    rw [concatPages_succ, ih (start + 1), concatPages_succ pg start n,
      List.append_assoc, show start + 1 + n = start + (n + 1) by omega]

theorem getReposGo_none_step (fetch : Nat → Option (List α))
    (perPage fuel page : Nat) (acc : List α) (reqs : List Nat)
    (hf : fetch page = none) :
    getReposGo fetch perPage (fuel + 1) page acc reqs = ⟨reqs ++ [page], acc⟩ := by
  simp [getReposGo, hf]

theorem getReposGo_short_step (fetch : Nat → Option (List α))
    (perPage fuel page : Nat) (acc : List α) (reqs : List Nat) (l : List α)
    (hf : fetch page = some l) (hlen : l.length < perPage) :
    getReposGo fetch perPage (fuel + 1) page acc reqs =
      ⟨reqs ++ [page], acc ++ l⟩ := by
  cases l with
  | nil => simp [getReposGo, hf]
  | cons a t =>
    simp only [getReposGo, hf]
    rw [if_neg (by simp), if_pos hlen]

theorem getReposGo_full_step (fetch : Nat → Option (List α))
    (perPage fuel page : Nat) (acc : List α) (reqs : List Nat) (l : List α)
    (hf : fetch page = some l) (hlen : l.length = perPage) (hpp : 0 < perPage) :
    getReposGo fetch perPage (fuel + 1) page acc reqs =
      getReposGo fetch perPage fuel (page + 1) (acc ++ l) (reqs ++ [page]) := by
  cases l with
  | nil => simp at hlen; omega
  | cons a t =>
    simp only [getReposGo, hf]
    rw [if_neg (by simp), if_neg (by omega)]

theorem getReposGo_advance (fetch : Nat → Option (List α)) (perPage : Nat)
    (pg : Nat → List α) :
    ∀ (n : Nat), ∀ (start fuel : Nat) (acc : List α) (reqs : List Nat),
      (∀ j, j < n → fetch (start + j) = some (pg (start + j)) ∧
        (pg (start + j)).length = perPage) →
      0 < perPage →
      getReposGo fetch perPage (fuel + n) start acc reqs =
        getReposGo fetch perPage fuel (start + n)
          (acc ++ concatPages pg start n) (reqs ++ List.range' start n) := by
  intro n
  induction n with
  | zero =>
    intro start fuel acc reqs _ _
    simp [concatPages_zero]
  | succ n ih =>
    intro start fuel acc reqs h hpp
    have h0 := h 0 (Nat.succ_pos n)
    rw [Nat.add_zero] at h0
    have hstep := getReposGo_full_step fetch perPage (fuel + n) start acc reqs
      (pg start) h0.1 h0.2 hpp
    have hfe : fuel + (n + 1) = (fuel + n) + 1 := rfl
    rw [hfe, hstep]
    have ihh := ih (start + 1) fuel (acc ++ pg start) (reqs ++ [start])
      (fun j hj => by
        have := h (j + 1) (by omega)
        rwa [show start + (j + 1) = start + 1 + j by omega] at this) hpp
    rw [ihh, show start + 1 + n = start + (n + 1) by omega,
      List.append_assoc, List.append_assoc, ← concatPages_succ,
      List.singleton_append, ← List.range'_succ]

theorem getGithubReposGo_rl_step (env : Nat → HttpResponse (List α))
    (now : Nat → Int) (fuel i page : Nat) (acc : List α) (reqs : List Nat)
    (sleeps : List Int) (h403 : (env i).status = 403)
    (hrem : (env i).remaining.isSome = true) :
    getGithubReposGo env now (fuel + 1) i page acc reqs sleeps =
      getGithubReposGo env now fuel (i + 1) page acc (reqs ++ [page])
        (sleeps ++ [max ((env i).reset.getD 0 - now i) 1]) := by
  simp [getGithubReposGo, h403, hrem]

theorem getGithubReposGo_err_step (env : Nat → HttpResponse (List α))
    (now : Nat → Int) (fuel i page : Nat) (acc : List α) (reqs : List Nat)
    (sleeps : List Int)
    (hnotrl : ¬((env i).status = 403 ∧ (env i).remaining.isSome = true))
    (herr : (env i).status ≠ 200) :
    getGithubReposGo env now (fuel + 1) i page acc reqs sleeps =
      ⟨reqs ++ [page], sleeps, acc⟩ := by
  simp only [getGithubReposGo]
  rw [if_neg hnotrl, if_pos herr]

theorem getGithubReposGo_empty_step (env : Nat → HttpResponse (List α))
    (now : Nat → Int) (fuel i page : Nat) (acc : List α) (reqs : List Nat)
    (sleeps : List Int) (hok : (env i).status = 200)
    (hemp : (env i).body = []) :
    getGithubReposGo env now (fuel + 1) i page acc reqs sleeps =
      ⟨reqs ++ [page], sleeps, acc⟩ := by
  simp [getGithubReposGo, hok, hemp]

theorem getGithubReposGo_ok_step (env : Nat → HttpResponse (List α))
    (now : Nat → Int) (fuel i page : Nat) (acc : List α) (reqs : List Nat)
    (sleeps : List Int) (hok : (env i).status = 200)
    (hne : (env i).body ≠ []) :
    getGithubReposGo env now (fuel + 1) i page acc reqs sleeps =
      getGithubReposGo env now fuel (i + 1) (page + 1) (acc ++ (env i).body)
        (reqs ++ [page]) sleeps := by
  simp only [getGithubReposGo]
  rw [if_neg (by simp [hok]), if_neg (by simp [hok]),
    if_neg (by simp [List.isEmpty_iff, hne])]

theorem getGithubReposGo_advance (env : Nat → HttpResponse (List α))
    (now : Nat → Int) (pg : Nat → List α) :
    ∀ (n : Nat), ∀ (i fuel : Nat) (acc : List α) (reqs : List Nat)
      (sleeps : List Int),
      (∀ j, j < n → env (i + j) = okResp (pg (i + 1 + j)) ∧ pg (i + 1 + j) ≠ []) →
      getGithubReposGo env now (fuel + n) i (i + 1) acc reqs sleeps =
        getGithubReposGo env now fuel (i + n) (i + 1 + n)
          (acc ++ concatPages pg (i + 1) n) (reqs ++ List.range' (i + 1) n)
          sleeps := by
  intro n
  induction n with
  | zero =>
    intro i fuel acc reqs sleeps _
    simp [concatPages_zero]
  | succ n ih =>
    intro i fuel acc reqs sleeps h
    have h0 := h 0 (Nat.succ_pos n)
    rw [Nat.add_zero] at h0
    have hstep := getGithubReposGo_ok_step env now (fuel + n) i (i + 1) acc reqs
      sleeps (by rw [h0.1]; rfl) (by rw [h0.1]; exact h0.2)
    have hfe : fuel + (n + 1) = (fuel + n) + 1 := rfl
    rw [hfe, hstep]
    have hbody : (env i).body = pg (i + 1) := by rw [h0.1]; rfl
    rw [hbody]
    have ihh := ih (i + 1) fuel (acc ++ pg (i + 1)) (reqs ++ [i + 1]) sleeps
      (fun j hj => by
        have := h (j + 1) (by omega)
        rwa [show i + (j + 1) = i + 1 + j by omega,
          show i + 1 + (j + 1) = i + 1 + 1 + j by omega] at this)
    rw [show i + 1 + 1 = (i + 1) + 1 by omega] at ihh
    rw [ihh, show i + 1 + n = i + (n + 1) by omega,
      show (i + 1) + 1 + n = i + 1 + (n + 1) by omega,
      List.append_assoc, List.append_assoc, ← concatPages_succ,
      List.singleton_append, ← List.range'_succ]

theorem countIssuesGo_short_step (fetch : Nat → Option (List Issue))
    (fuel page count : Nat) (l : List Issue) (hf : fetch page = some l)
    (hlen : l.length < 100) :
    countIssuesGo fetch (fuel + 1) page count =
      count + (l.filter (fun i => !i.hasPullRequest)).length := by
  cases l with
  | nil => simp [countIssuesGo, hf]
  | cons a t =>
    simp only [countIssuesGo, hf]
    rw [if_neg (by simp), if_pos hlen]

theorem countIssuesGo_full_step (fetch : Nat → Option (List Issue))
    (fuel page count : Nat) (l : List Issue) (hf : fetch page = some l)
    (hlen : l.length = 100) :
    countIssuesGo fetch (fuel + 1) page count =
      countIssuesGo fetch fuel (page + 1)
        (count + (l.filter (fun i => !i.hasPullRequest)).length) := by
  cases l with
  | nil => simp at hlen
  | cons a t =>
    simp only [countIssuesGo, hf]
    rw [if_neg (by simp), if_neg (by omega)]

theorem countIssuesGo_advance (fetch : Nat → Option (List Issue))
    (pg : Nat → List Issue) :
    ∀ (n : Nat), ∀ (start fuel count : Nat),
      (∀ j, j < n → fetch (start + j) = some (pg (start + j)) ∧
        (pg (start + j)).length = 100) →
      countIssuesGo fetch (fuel + n) start count =
        countIssuesGo fetch fuel (start + n)
          (count + ((concatPages pg start n).filter
            (fun i => !i.hasPullRequest)).length) := by
  intro n
  induction n with
  | zero =>
    intro start fuel count _
    simp [concatPages_zero]
  | succ n ih =>
    intro start fuel count h
    have h0 := h 0 (Nat.succ_pos n)
    rw [Nat.add_zero] at h0
    have hfe : fuel + (n + 1) = (fuel + n) + 1 := rfl
    rw [hfe, countIssuesGo_full_step fetch (fuel + n) start count (pg start)
      h0.1 h0.2]
    have ihh := ih (start + 1) fuel
      (count + ((pg start).filter (fun i => !i.hasPullRequest)).length)
      (fun j hj => by
        have := h (j + 1) (by omega)
        rwa [show start + (j + 1) = start + 1 + j by omega] at this)
    rw [ihh, show start + 1 + n = start + (n + 1) by omega, concatPages_succ,
      List.filter_append, List.length_append, Nat.add_assoc]

theorem githubApiGetGo_rl_step (env : Nat → ReqEvent α) (now : Nat → Int)
    (maxRetries fuel i r : Nat) (sleeps : List Int) (logs : List LogEntry)
    (resp : HttpResponse α) (he : env i = .resp resp)
    (h403 : resp.status = 403) (hrl : resp.rateLimitInText = true)
    (hr : r < maxRetries) :
    githubApiGetGo env now maxRetries (fuel + 1) i r sleeps logs =
      githubApiGetGo env now maxRetries fuel (i + 1) r
        (sleeps ++ [max (resp.reset.getD (now i + 60) - now i) 1]) logs := by
  simp [githubApiGetGo, he, h403, hrl, hr]

theorem githubApiGetGo_fail_step (env : Nat → ReqEvent α) (now : Nat → Int)
    (maxRetries fuel i r : Nat) (sleeps : List Int) (logs : List LogEntry)
    (resp : HttpResponse α) (he : env i = .resp resp)
    (hnotrl : ¬(resp.status = 403 ∧ resp.rateLimitInText = true))
    (h200 : resp.status ≠ 200) (h201 : resp.status ≠ 201)
    (hr : r < maxRetries) :
    githubApiGetGo env now maxRetries (fuel + 1) i r sleeps logs =
      ⟨none, i + 1, sleeps, logs ++ [.failedGet resp.status resp.text]⟩ := by
  simp only [githubApiGetGo, he]
  rw [if_pos hr, if_neg hnotrl, if_pos ⟨h200, h201⟩]

theorem githubApiGetGo_ok_step (env : Nat → ReqEvent α) (now : Nat → Int)
    (maxRetries fuel i r : Nat) (sleeps : List Int) (logs : List LogEntry)
    (resp : HttpResponse α) (he : env i = .resp resp)
    (hs : resp.status = 200 ∨ resp.status = 201) (hr : r < maxRetries) :
    githubApiGetGo env now maxRetries (fuel + 1) i r sleeps logs =
      ⟨some resp.body, i + 1, sleeps, logs⟩ := by
  simp only [githubApiGetGo, he]
  rw [if_pos hr, if_neg (by rcases hs with h | h <;> simp [h]),
    if_neg (by rcases hs with h | h <;> simp [h])]

theorem githubApiGetGo_connErr_step (env : Nat → ReqEvent α) (now : Nat → Int)
    (maxRetries fuel i r : Nat) (sleeps : List Int) (logs : List LogEntry)
    (m : String) (he : env i = .connErr m) (hr : r < maxRetries) :
    githubApiGetGo env now maxRetries (fuel + 1) i r sleeps logs =
      githubApiGetGo env now maxRetries fuel (i + 1) (r + 1)
        (sleeps ++ [((5 * (r + 1) : Nat) : Int)])
        (logs ++ [.connRetry m (r + 1) maxRetries]) := by
  simp [githubApiGetGo, he, hr]

theorem githubApiGetGo_exhaust_step (env : Nat → ReqEvent α) (now : Nat → Int)
    (maxRetries fuel i r : Nat) (sleeps : List Int) (logs : List LogEntry)
    (hr : ¬r < maxRetries) :
    githubApiGetGo env now maxRetries (fuel + 1) i r sleeps logs =
      ⟨none, i, sleeps, logs ++ [.maxRetriesExceeded]⟩ := by
  simp [githubApiGetGo, hr]

theorem githubApiGetGo_rl_advance (env : Nat → ReqEvent α) (now : Nat → Int)
    (maxRetries : Nat) :
    ∀ (k : Nat), ∀ (fuel i r : Nat) (sleeps : List Int) (logs : List LogEntry),
      (∀ j, j < k → isRateLimitedEvent (env (i + j)) = true) →
      r < maxRetries →
      ∃ s : List Int, s.length = k ∧
        githubApiGetGo env now maxRetries (fuel + k) i r sleeps logs =
          githubApiGetGo env now maxRetries fuel (i + k) r (sleeps ++ s) logs := by
  intro k
  induction k with
  | zero =>
    intro fuel i r sleeps logs _ _
    exact ⟨[], rfl, by simp⟩
  | succ k ih =>
    intro fuel i r sleeps logs h hr
    have h0 := h 0 (Nat.succ_pos k)
    rw [Nat.add_zero] at h0
    cases he : env i with
    | resp resp =>
      rw [he] at h0
      simp only [isRateLimitedEvent, decide_eq_true_eq] at h0
      have hfe : fuel + (k + 1) = (fuel + k) + 1 := rfl
      rw [hfe, githubApiGetGo_rl_step env now maxRetries (fuel + k) i r sleeps
        logs resp he h0.1 h0.2 hr]
      obtain ⟨s, hs, heq⟩ := ih fuel (i + 1) r
        (sleeps ++ [max (resp.reset.getD (now i + 60) - now i) 1]) logs
        (fun j hj => by
          have := h (j + 1) (by omega)
          rwa [show i + (j + 1) = i + 1 + j by omega] at this) hr
      refine ⟨max (resp.reset.getD (now i + 60) - now i) 1 :: s, by simp [hs], ?_⟩
      rw [heq, show i + 1 + k = i + (k + 1) by omega, List.append_assoc,
        List.singleton_append]
    | connErr m => rw [he] at h0; simp [isRateLimitedEvent] at h0
    | otherErr m => rw [he] at h0; simp [isRateLimitedEvent] at h0

theorem githubApiGetInvGo_rl_step (env : Nat → InvEvent α) (now : Nat → Int)
    (rem i : Nat) (sleeps : List Int) (prints : List PrintMsg)
    (resp : HttpResponse α) (he : env i = .resp resp)
    (h403 : resp.status = 403) (hrem : resp.remaining = some "0") :
    githubApiGetInvGo env now (rem + 1) i sleeps prints =
      githubApiGetInvGo env now rem (i + 1)
        (sleeps ++ [resp.reset.getD (now i + 60) - now i])
        (prints ++ [.rateLimitSleep (resp.reset.getD (now i + 60) - now i)]) := by
  simp [githubApiGetInvGo, he, h403, hrem]

theorem githubApiGetInvGo_fail_step (env : Nat → InvEvent α) (now : Nat → Int)
    (rem i : Nat) (sleeps : List Int) (prints : List PrintMsg)
    (resp : HttpResponse α) (he : env i = .resp resp)
    (hnotrl : ¬(resp.status = 403 ∧ resp.remaining = some "0"))
    (h400 : 400 ≤ resp.status) (h600 : resp.status < 600) :
    githubApiGetInvGo env now (rem + 1) i sleeps prints =
      ⟨none, i + 1, sleeps, prints ++ [.requestFailed resp.status], []⟩ := by
  simp only [githubApiGetInvGo, he]
  rw [if_neg hnotrl, if_pos ⟨h400, h600⟩]

theorem githubApiGetInvGo_connErr_step (env : Nat → InvEvent α)
    (now : Nat → Int) (rem i : Nat) (sleeps : List Int)
    (prints : List PrintMsg) (m : String) (he : env i = .connErr m) :
    githubApiGetInvGo env now (rem + 1) i sleeps prints =
      githubApiGetInvGo env now rem (i + 1)
        (sleeps ++ [((2 ^ i : Nat) : Int)])
        (prints ++ [.networkError (i + 1) m]) := by
  simp [githubApiGetInvGo, he]

theorem githubApiGetInvGo_rl_exhaust (env : Nat → InvEvent α)
    (now : Nat → Int) :
    ∀ (rem : Nat), ∀ (i : Nat) (sleeps : List Int) (prints : List PrintMsg),
      (∀ j, j < rem → isRateLimitedInv (env (i + j)) = true) →
      ∃ (s : List Int) (p : List PrintMsg), s.length = rem ∧
        githubApiGetInvGo env now rem i sleeps prints =
          ⟨none, i + rem, sleeps ++ s, prints ++ p, []⟩ := by
  intro rem
  induction rem with
  | zero =>
    intro i sleeps prints _
    exact ⟨[], [], rfl, by simp [githubApiGetInvGo]⟩
  | succ rem ih =>
    intro i sleeps prints h
    have h0 := h 0 (Nat.succ_pos rem)
    rw [Nat.add_zero] at h0
    cases he : env i with
    | resp resp =>
      rw [he] at h0
      simp only [isRateLimitedInv, decide_eq_true_eq] at h0
      rw [githubApiGetInvGo_rl_step env now rem i sleeps prints resp he
        h0.1 h0.2]
      obtain ⟨s, p, hs, heq⟩ := ih (i + 1)
        (sleeps ++ [resp.reset.getD (now i + 60) - now i])
        (prints ++ [.rateLimitSleep (resp.reset.getD (now i + 60) - now i)])
        (fun j hj => by
          have := h (j + 1) (by omega)
          rwa [show i + (j + 1) = i + 1 + j by omega] at this)
      refine ⟨(resp.reset.getD (now i + 60) - now i) :: s,
        .rateLimitSleep (resp.reset.getD (now i + 60) - now i) :: p,
        by simp [hs], ?_⟩
      rw [heq, show i + 1 + rem = i + (rem + 1) by omega, List.append_assoc,
        List.singleton_append, List.append_assoc, List.singleton_append]
    | connErr m => rw [he] at h0; simp [isRateLimitedInv] at h0

/-- Claim C1, counterexample: get_github_repos of fetch_repo_list.py does not
stop requesting at the first page with fewer items than the page size.  With
page 1 holding a single item (short and nonempty) and page 2 empty, it
requests page 2 after the short page 1, while the claim says pagination stops
exactly at the first short or empty page. -/
theorem getGithubRepos_requests_past_short_page :
    (getGithubRepos (fun i => okResp (if i = 0 then [5] else ([] : List Nat)))
      (fun _ => 0) 10).requests = [1, 2] ∧
    (okResp (if (0 : Nat) = 0 then [5] else ([] : List Nat))).body.length < 100 ∧
    (okResp (if (0 : Nat) = 0 then [5] else ([] : List Nat))).body ≠ [] := by
  constructor
  · rfl
  · exact ⟨by decide, by decide⟩

/-- Claim C1, amended: both paginators return exactly the concatenation of
the pages they requested, in order; get_repos (fetch_repo_details.py and
fetch_repo_details_inventory.py) stops requesting exactly at the first page
that is empty or shorter than the page size 100, while get_github_repos
(fetch_repo_list.py) stops requesting only at the first empty page, so a
short nonempty page does not stop it and one further page is requested. -/
theorem paginators_return_concatenation {α : Type} (pg pgL : Nat → List α)
    (now : Nat → Int) (m mL fuel fuelL : Nat)
    (hfull : ∀ j, j < m → (pg (1 + j)).length = 100)
    (hshort : (pg (1 + m)).length < 100)
    (hfuel : m + 1 ≤ fuel)
    (hne : ∀ j, j < mL → pgL (1 + j) ≠ [])
    (hempty : pgL (1 + mL) = [])
    (hfuelL : mL + 1 ≤ fuelL) :
    getRepos (fun p => some (pg p)) fuel =
      ⟨List.range' 1 (m + 1), concatPages pg 1 (m + 1)⟩ ∧
    getGithubRepos (fun i => okResp (pgL (i + 1))) now fuelL =
      ⟨List.range' 1 (mL + 1), [], concatPages pgL 1 mL⟩ := by
  constructor
  · obtain ⟨f, rfl⟩ : ∃ f, fuel = (f + 1) + m := ⟨fuel - (m + 1), by omega⟩
    unfold getRepos
    rw [getReposGo_advance (fun p => some (pg p)) 100 pg m 1 (f + 1) [] []
      (fun j hj => ⟨rfl, hfull j hj⟩) (by omega)]
    rw [getReposGo_short_step (fun p => some (pg p)) 100 f (1 + m)
      ([] ++ concatPages pg 1 m) ([] ++ List.range' 1 m) (pg (1 + m)) rfl hshort]
    rw [List.nil_append, List.nil_append, ← List.range'_1_concat,
      ← concatPages_concat]
  · obtain ⟨f, rfl⟩ : ∃ f, fuelL = (f + 1) + mL := ⟨fuelL - (mL + 1), by omega⟩
    unfold getGithubRepos
    have hyp : ∀ j, j < mL →
        (fun i => okResp (pgL (i + 1))) (0 + j) = okResp (pgL (0 + 1 + j)) ∧
        pgL (0 + 1 + j) ≠ [] := by
      intro j hj
      constructor
      · show okResp (pgL (0 + j + 1)) = okResp (pgL (0 + 1 + j))
        rw [show 0 + j + 1 = 0 + 1 + j by omega]
      · rw [show 0 + 1 + j = 1 + j by omega]
        exact hne j hj
    have hadv := getGithubReposGo_advance (fun i => okResp (pgL (i + 1))) now
      pgL mL 0 (f + 1) [] [] [] hyp
    simp only [Nat.zero_add] at hadv
    rw [hadv]
    have hemp : ((fun i => okResp (pgL (i + 1))) mL).body = [] := by
      show pgL (mL + 1) = []
      rw [show mL + 1 = 1 + mL by omega]
      exact hempty
    rw [getGithubReposGo_empty_step (fun i => okResp (pgL (i + 1))) now f
      mL (1 + mL) ([] ++ concatPages pgL 1 mL) ([] ++ List.range' 1 mL)
      [] rfl hemp]
    rw [List.nil_append, List.nil_append, ← List.range'_1_concat]

/-- Claim C1, witness: the amended pagination theorem applied to a concrete
run with one full page and one short page for get_repos, and two nonempty
pages followed by an empty page for get_github_repos. -/
theorem paginators_return_concatenation_witness :
    getRepos (fun p => some (if p = 1 then List.replicate 100 3
      else if p = 2 then [7] else [])) 2 =
      ⟨List.range' 1 2, concatPages (fun p => if p = 1 then List.replicate 100 3
        else if p = 2 then [7] else []) 1 2⟩ ∧
    getGithubRepos (fun i => okResp ((fun p => if p ≤ 2 then [p] else []) (i + 1)))
      (fun _ => 0) 3 =
      ⟨List.range' 1 3, [], concatPages (fun p => if p ≤ 2 then [p] else []) 1 2⟩ :=
  paginators_return_concatenation
    (fun p => if p = 1 then List.replicate 100 3 else if p = 2 then [7] else [])
    (fun p => if p ≤ 2 then [p] else []) (fun _ => 0) 1 2 2 3
    (by decide) (by decide) (by decide) (by decide) (by decide) (by decide)

/-- Claim C6, confirmed: the issue counters of both detail scripts count
exactly the items without the pull_request marker key.  In
fetch_repo_details.py, count_issues over a paginated list of issues (full
pages followed by a short one) equals the length of the filtered
concatenation; in fetch_repo_details_inventory.py, get_issue_counts returns
the lengths of the filtered open and closed lists. -/
theorem issue_counts_exclude_pull_requests (pg : Nat → List Issue)
    (m fuel : Nat) (openL closedL : List Issue)
    (hfull : ∀ j, j < m → (pg (1 + j)).length = 100)
    (hshort : (pg (1 + m)).length < 100)
    (hfuel : m + 1 ≤ fuel) :
    countIssues (fun p => some (pg p)) fuel =
      ((concatPages pg 1 (m + 1)).filter (fun i => !i.hasPullRequest)).length ∧
    getIssueCountsInv openL closedL =
      ((openL.filter (fun i => !i.hasPullRequest)).length,
       (closedL.filter (fun i => !i.hasPullRequest)).length) := by
  refine ⟨?_, rfl⟩
  obtain ⟨f, rfl⟩ : ∃ f, fuel = (f + 1) + m := ⟨fuel - (m + 1), by omega⟩
  unfold countIssues
  rw [countIssuesGo_advance (fun p => some (pg p)) pg m 1 (f + 1) 0
    (fun j hj => ⟨rfl, hfull j hj⟩)]
  rw [countIssuesGo_short_step (fun p => some (pg p)) f (1 + m) _ (pg (1 + m))
    rfl hshort]
  rw [concatPages_concat, List.filter_append, List.length_append,
    Nat.zero_add]

/-- Claim C6, witness: the issue-count theorem applied to a concrete run with
one full page and one short page, where pull-request items are interleaved
with plain issues. -/
theorem issue_counts_exclude_pull_requests_witness :
    countIssues (fun p => some (if p = 1 then
        List.replicate 50 (Issue.mk true) ++ List.replicate 50 (Issue.mk false)
      else if p = 2 then [Issue.mk true, Issue.mk false] else [])) 2 =
      ((concatPages (fun p => if p = 1 then
        List.replicate 50 (Issue.mk true) ++ List.replicate 50 (Issue.mk false)
      else if p = 2 then [Issue.mk true, Issue.mk false] else []) 1 2).filter
        (fun i => !i.hasPullRequest)).length ∧
    getIssueCountsInv [Issue.mk true, Issue.mk false] [Issue.mk false] =
      (([Issue.mk true, Issue.mk false].filter
        (fun i => !i.hasPullRequest)).length,
       ([Issue.mk false].filter (fun i => !i.hasPullRequest)).length) :=
  issue_counts_exclude_pull_requests
    (fun p => if p = 1 then
        List.replicate 50 (Issue.mk true) ++ List.replicate 50 (Issue.mk false)
      else if p = 2 then [Issue.mk true, Issue.mk false] else [])
    1 2 [Issue.mk true, Issue.mk false] [Issue.mk false]
    (by decide) (by decide) (by decide)

/-- Claim C10, confirmed: when the client yields the failure sentinel after
some pages were already accumulated (None or empty for get_repos, a
non-success status for get_github_repos), the paginator returns the partial
accumulation of the earlier pages as its ordinary result; and, as the final
conjunct exhibits, that result is indistinguishable from the result of a run
that completed normally with the same pages. -/
theorem paginator_truncated_on_failure {α : Type} (pg pgL : Nat → List α)
    (fetch : Nat → Option (List α)) (envL : Nat → HttpResponse (List α))
    (now : Nat → Int) (m mL fuel fuelL : Nat)
    (hagree : ∀ j, j < m → fetch (1 + j) = some (pg (1 + j)) ∧
      (pg (1 + j)).length = 100)
    (hfail : fetch (1 + m) = none)
    (hfuel : m + 1 ≤ fuel)
    (hLagree : ∀ j, j < mL → envL j = okResp (pgL (1 + j)) ∧ pgL (1 + j) ≠ [])
    (hLerr : (envL mL).status ≠ 200)
    (hLnotrl : ¬((envL mL).status = 403 ∧ (envL mL).remaining.isSome = true))
    (hfuelL : mL + 1 ≤ fuelL) :
    getRepos fetch fuel = ⟨List.range' 1 (m + 1), concatPages pg 1 m⟩ ∧
    getGithubRepos envL now fuelL =
      ⟨List.range' 1 (mL + 1), [], concatPages pgL 1 mL⟩ ∧
    (getRepos (fun p => if p = 1 then some (List.replicate 100 (7 : Nat))
        else none) 5).repos =
      (getRepos (fun p => if p = 1 then some (List.replicate 100 (7 : Nat))
        else some []) 5).repos := by
  refine ⟨?_, ?_, by rfl⟩
  · obtain ⟨f, rfl⟩ : ∃ f, fuel = (f + 1) + m := ⟨fuel - (m + 1), by omega⟩
    unfold getRepos
    rw [getReposGo_advance fetch 100 pg m 1 (f + 1) [] [] hagree (by omega)]
    rw [getReposGo_none_step fetch 100 f (1 + m) ([] ++ concatPages pg 1 m)
      ([] ++ List.range' 1 m) hfail]
    rw [List.nil_append, List.nil_append, ← List.range'_1_concat]
  · obtain ⟨f, rfl⟩ : ∃ f, fuelL = (f + 1) + mL := ⟨fuelL - (mL + 1), by omega⟩
    unfold getGithubRepos
    have hyp : ∀ j, j < mL →
        envL (0 + j) = okResp (pgL (0 + 1 + j)) ∧ pgL (0 + 1 + j) ≠ [] := by
      intro j hj
      rw [show 0 + 1 + j = 1 + j by omega, Nat.zero_add]
      exact hLagree j hj
    have hadv := getGithubReposGo_advance envL now pgL mL 0 (f + 1) [] [] [] hyp
    simp only [Nat.zero_add] at hadv
    rw [hadv]
    rw [getGithubReposGo_err_step envL now f mL (1 + mL)
      ([] ++ concatPages pgL 1 mL) ([] ++ List.range' 1 mL) [] hLnotrl hLerr]
    rw [List.nil_append, List.nil_append, ← List.range'_1_concat]

/-- Claim C10, witness: the partial-accumulation theorem applied to a
concrete run where get_repos sees one full page and then the None sentinel,
and get_github_repos sees one nonempty page and then a 500 response. -/
theorem paginator_truncated_on_failure_witness :
    getRepos (fun p => if p = 1 then some (List.replicate 100 (4 : Nat))
      else none) 2 =
      ⟨List.range' 1 2,
        concatPages (fun _ => List.replicate 100 (4 : Nat)) 1 1⟩ ∧
    getGithubRepos (fun i => if i = 0 then okResp [9]
      else ⟨500, false, none, none, "", []⟩) (fun _ => 0) 2 =
      ⟨List.range' 1 2, [],
        concatPages (fun p => if p = 1 then [9] else []) 1 1⟩ ∧
    (getRepos (fun p => if p = 1 then some (List.replicate 100 (7 : Nat))
        else none) 5).repos =
      (getRepos (fun p => if p = 1 then some (List.replicate 100 (7 : Nat))
        else some []) 5).repos :=
  paginator_truncated_on_failure
    (fun _ => List.replicate 100 (4 : Nat)) (fun p => if p = 1 then [9] else [])
    (fun p => if p = 1 then some (List.replicate 100 (4 : Nat)) else none)
    (fun i => if i = 0 then okResp [9] else ⟨500, false, none, none, "", []⟩)
    (fun _ => 0) 1 1 2 2
    (by decide) (by decide) (by decide) (by decide) (by decide) (by decide)
    (by decide)

/-- Claim C2, counterexample: in fetch_repo_details_inventory.py, rate-limit
responses do count against the bounded attempt budget, because the continue
statement advances the for loop.  With the first three requests rate limited
and the fourth a plain success, github_api_get returns the failure sentinel
after exactly 3 requests instead of retrying until the success. -/
theorem inv_rate_limit_consumes_budget :
    (githubApiGetInv (fun i => if i < 3 then
        InvEvent.resp ⟨403, false, some "0", some 100, "", ([] : List Nat)⟩
      else InvEvent.resp ⟨200, false, some "5000", none, "", [42]⟩)
      (fun _ => 100)).result = none ∧
    (githubApiGetInv (fun i => if i < 3 then
        InvEvent.resp ⟨403, false, some "0", some 100, "", ([] : List Nat)⟩
      else InvEvent.resp ⟨200, false, some "5000", none, "", [42]⟩)
      (fun _ => 100)).requests = 3 := by
  constructor <;> rfl

/-- Claim C2, amended: in fetch_repo_details.py a rate-limit 403 causes a
sleep and a retry of the same request with the retry counter unchanged, so
any number k of consecutive rate-limit responses followed by a success still
returns the success after k + 1 requests with no error-log entry; in
fetch_repo_details_inventory.py each rate-limit response consumes one
iteration of the bounded attempt budget, so three consecutive rate-limit
responses exhaust the default budget and yield the sentinel. -/
theorem rate_limit_budget_details_vs_inventory {α β : Type}
    (env : Nat → ReqEvent α) (now : Nat → Int) (resp : HttpResponse α)
    (k fuel : Nat)
    (hrl : ∀ j, j < k → isRateLimitedEvent (env j) = true)
    (hok : env k = .resp resp) (h200 : resp.status = 200)
    (hfuel : k + 1 ≤ fuel)
    (envI : Nat → InvEvent β) (nowI : Nat → Int)
    (hrlI : ∀ j, j < 3 → isRateLimitedInv (envI j) = true) :
    (∃ s : List Int, s.length = k ∧
      githubApiGet env now fuel = ⟨some resp.body, k + 1, s, []⟩) ∧
    (∃ (s : List Int) (p : List PrintMsg), s.length = 3 ∧
      githubApiGetInv envI nowI = ⟨none, 3, s, p, []⟩) := by
  constructor
  · obtain ⟨f, rfl⟩ : ∃ f, fuel = (f + 1) + k := ⟨fuel - (k + 1), by omega⟩
    unfold githubApiGet
    obtain ⟨s, hs, heq⟩ := githubApiGetGo_rl_advance env now 5 k (f + 1) 0 0
      [] [] (fun j hj => by rw [Nat.zero_add]; exact hrl j hj) (by omega)
    rw [Nat.zero_add] at heq
    refine ⟨s, hs, ?_⟩
    rw [heq, githubApiGetGo_ok_step env now 5 f k 0 ([] ++ s) [] resp hok
      (Or.inl h200) (by omega), List.nil_append]
  · obtain ⟨s, p, hs, heq⟩ := githubApiGetInvGo_rl_exhaust envI nowI 3 0 [] []
      (fun j hj => by rw [Nat.zero_add]; exact hrlI j hj)
    refine ⟨s, p, hs, ?_⟩
    unfold githubApiGetInv
    rw [heq]
    simp

/-- Claim C2, witness: the amended theorem applied to a concrete run with two
rate-limited responses before the success for fetch_repo_details.py, and
all-rate-limited responses for fetch_repo_details_inventory.py. -/
theorem rate_limit_budget_details_vs_inventory_witness :
    (∃ s : List Int, s.length = 2 ∧
      githubApiGet (fun j => if j < 2 then
          ReqEvent.resp ⟨403, true, none, some 150, "rate limit", []⟩
        else ReqEvent.resp ⟨200, false, none, none, "", [1, 2]⟩)
        (fun _ => 100) 3 = ⟨some [1, 2], 3, s, []⟩) ∧
    (∃ (s : List Int) (p : List PrintMsg), s.length = 3 ∧
      githubApiGetInv
        (fun _ => InvEvent.resp ⟨403, false, some "0", some 100, "",
          ([] : List Nat)⟩) (fun _ => 100) = ⟨none, 3, s, p, []⟩) :=
  rate_limit_budget_details_vs_inventory
    (fun j => if j < 2 then
        ReqEvent.resp ⟨403, true, none, some 150, "rate limit", []⟩
      else ReqEvent.resp ⟨200, false, none, none, "", [1, 2]⟩)
    (fun _ => 100) ⟨200, false, none, none, "", [1, 2]⟩ 2 3
    (by decide) (by decide) (by decide) (by decide)
    (fun _ => InvEvent.resp ⟨403, false, some "0", some 100, "",
      ([] : List Nat)⟩) (fun _ => 100) (by decide)

/-- Claim C3, counterexample: in fetch_repo_details_inventory.py the computed
rate-limit sleep is reset - now with no floor at 1.  With a rate-limit
response carrying reset timestamp 100 at current time 100, the computed sleep
duration is 0, which is less than 1, while the claim says the client sleeps
max(reset - now, 1). -/
theorem inv_sleep_below_one :
    (githubApiGetInv (fun i => if i = 0 then
        InvEvent.resp ⟨403, false, some "0", some 100, "", ([] : List Nat)⟩
      else InvEvent.resp ⟨200, false, none, none, "", [1]⟩)
      (fun _ => 100)).sleeps = [0] ∧ (0 : Int) < 1 := by
  constructor
  · rfl
  · decide

/-- Claim C3, amended: on a rate-limit response carrying reset timestamp R at
current time now, github_api_get of fetch_repo_details.py and
get_github_repos of fetch_repo_list.py sleep max(R - now, 1), which is at
least 1, before retrying the same request; github_api_get of
fetch_repo_details_inventory.py sleeps exactly R - now, with no floor. -/
theorem rate_limit_sleep_floor {α β γ : Type}
    (env : Nat → ReqEvent α) (now : Nat → Int) (maxRetries fuel i r : Nat)
    (sleeps : List Int) (logs : List LogEntry) (resp : HttpResponse α)
    (R : Int) (he : env i = .resp resp) (h403 : resp.status = 403)
    (hrl : resp.rateLimitInText = true) (hres : resp.reset = some R)
    (hr : r < maxRetries)
    (envL : Nat → HttpResponse (List β)) (nowL : Nat → Int)
    (fuelL iL pageL : Nat) (accL : List β) (reqsL : List Nat)
    (sleepsL : List Int) (RL : Int) (h403L : (envL iL).status = 403)
    (hremL : (envL iL).remaining.isSome = true)
    (hresL : (envL iL).reset = some RL)
    (envI : Nat → InvEvent γ) (nowI : Nat → Int) (remI iI : Nat)
    (sleepsI : List Int) (printsI : List PrintMsg) (respI : HttpResponse γ)
    (RI : Int) (heI : envI iI = .resp respI) (h403I : respI.status = 403)
    (hremI : respI.remaining = some "0") (hresI : respI.reset = some RI) :
    (githubApiGetGo env now maxRetries (fuel + 1) i r sleeps logs =
      githubApiGetGo env now maxRetries fuel (i + 1) r
        (sleeps ++ [max (R - now i) 1]) logs ∧ 1 ≤ max (R - now i) 1) ∧
    (getGithubReposGo envL nowL (fuelL + 1) iL pageL accL reqsL sleepsL =
      getGithubReposGo envL nowL fuelL (iL + 1) pageL accL (reqsL ++ [pageL])
        (sleepsL ++ [max (RL - nowL iL) 1]) ∧ 1 ≤ max (RL - nowL iL) 1) ∧
    githubApiGetInvGo envI nowI (remI + 1) iI sleepsI printsI =
      githubApiGetInvGo envI nowI remI (iI + 1) (sleepsI ++ [RI - nowI iI])
        (printsI ++ [.rateLimitSleep (RI - nowI iI)]) := by
  refine ⟨⟨?_, le_max_right _ _⟩, ⟨?_, le_max_right _ _⟩, ?_⟩
  · have h := githubApiGetGo_rl_step env now maxRetries fuel i r sleeps logs
      resp he h403 hrl hr
    rw [hres] at h
    simpa using h
  · have h := getGithubReposGo_rl_step envL nowL fuelL iL pageL accL reqsL
      sleepsL h403L hremL
    rw [hresL] at h
    simpa using h
  · have h := githubApiGetInvGo_rl_step envI nowI remI iI sleepsI printsI
      respI heI h403I hremI
    rw [hresI] at h
    simpa using h

/-- Claim C3, witness: the sleep-floor theorem applied to one concrete
rate-limited step of each of the three clients, with reset timestamp 150 and
current time 100. -/
theorem rate_limit_sleep_floor_witness :
    (githubApiGetGo (fun _ => ReqEvent.resp
        ⟨403, true, none, some 150, "rate limit", ([] : List Nat)⟩)
        (fun _ => 100) 5 1 0 0 [] [] =
      githubApiGetGo (fun _ => ReqEvent.resp
        ⟨403, true, none, some 150, "rate limit", ([] : List Nat)⟩)
        (fun _ => 100) 5 0 1 0 ([] ++ [max (150 - 100) 1]) [] ∧
      (1 : Int) ≤ max (150 - 100) 1) ∧
    (getGithubReposGo (fun _ => ⟨403, false, some "29", some 150, "",
        ([] : List Nat)⟩) (fun _ => 100) 1 0 1 [] [] [] =
      getGithubReposGo (fun _ => ⟨403, false, some "29", some 150, "",
        ([] : List Nat)⟩) (fun _ => 100) 0 1 1 [] ([] ++ [1])
        ([] ++ [max (150 - 100) 1]) ∧
      (1 : Int) ≤ max (150 - 100) 1) ∧
    githubApiGetInvGo (fun _ => InvEvent.resp
        ⟨403, false, some "0", some 150, "", ([] : List Nat)⟩)
        (fun _ => 100) 1 0 [] [] =
      githubApiGetInvGo (fun _ => InvEvent.resp
        ⟨403, false, some "0", some 150, "", ([] : List Nat)⟩)
        (fun _ => 100) 0 1 ([] ++ [150 - 100])
        ([] ++ [.rateLimitSleep (150 - 100)]) :=
  rate_limit_sleep_floor
    (fun _ => ReqEvent.resp ⟨403, true, none, some 150, "rate limit",
      ([] : List Nat)⟩) (fun _ => 100) 5 0 0 0 [] []
    ⟨403, true, none, some 150, "rate limit", []⟩ 150
    (by decide) (by decide) (by decide) (by decide) (by decide)
    (fun _ => ⟨403, false, some "29", some 150, "", ([] : List Nat)⟩)
    (fun _ => 100) 0 0 1 [] [] [] 150 (by decide) (by decide) (by decide)
    (fun _ => InvEvent.resp ⟨403, false, some "0", some 150, "",
      ([] : List Nat)⟩) (fun _ => 100) 0 0 [] []
    ⟨403, false, some "0", some 150, "", []⟩ 150
    (by decide) (by decide) (by decide) (by decide)

/-- Claim C4, counterexample: in fetch_repo_details_inventory.py a non-success
non-rate-limit response yields the failure sentinel after one request with no
retry, but nothing is appended to the error log (the logs trace is empty);
the only diagnostic is a console print that carries the exception text, not
the response body.  The claim requires one error-log entry containing the
status and response body. -/
theorem inv_http_error_not_logged :
    githubApiGetInv (fun _ => InvEvent.resp
      ⟨500, false, none, none, "server blew up", ([] : List Nat)⟩)
      (fun _ => 0) = ⟨none, 1, [], [.requestFailed 500], []⟩ := by
  rfl

/-- Claim C4, amended: on a response that is neither a success nor a
rate-limit condition, github_api_get of fetch_repo_details.py appends exactly
one error-log entry carrying the status and response body, returns None, and
makes no further request; github_api_get of
fetch_repo_details_inventory.py likewise returns its sentinel without a
further request, but only prints a failure message and appends nothing to the
error log. -/
theorem http_error_log_details_vs_inventory {α β : Type}
    (env : Nat → ReqEvent α) (now : Nat → Int) (maxRetries fuel i r : Nat)
    (sleeps : List Int) (logs : List LogEntry) (resp : HttpResponse α)
    (he : env i = .resp resp)
    (hnotrl : ¬(resp.status = 403 ∧ resp.rateLimitInText = true))
    (h200 : resp.status ≠ 200) (h201 : resp.status ≠ 201)
    (hr : r < maxRetries)
    (envI : Nat → InvEvent β) (nowI : Nat → Int) (remI iI : Nat)
    (sleepsI : List Int) (printsI : List PrintMsg) (respI : HttpResponse β)
    (heI : envI iI = .resp respI)
    (hnotrlI : ¬(respI.status = 403 ∧ respI.remaining = some "0"))
    (h400I : 400 ≤ respI.status) (h600I : respI.status < 600) :
    githubApiGetGo env now maxRetries (fuel + 1) i r sleeps logs =
      ⟨none, i + 1, sleeps, logs ++ [.failedGet resp.status resp.text]⟩ ∧
    githubApiGetInvGo envI nowI (remI + 1) iI sleepsI printsI =
      ⟨none, iI + 1, sleepsI, printsI ++ [.requestFailed respI.status], []⟩ :=
  ⟨githubApiGetGo_fail_step env now maxRetries fuel i r sleeps logs resp he
      hnotrl h200 h201 hr,
   githubApiGetInvGo_fail_step envI nowI remI iI sleepsI printsI respI heI
      hnotrlI h400I h600I⟩

/-- Claim C4, witness: the amended theorem applied to a concrete 404 response
for fetch_repo_details.py and a concrete 500 response for
fetch_repo_details_inventory.py. -/
theorem http_error_log_details_vs_inventory_witness :
    githubApiGetGo (fun _ => ReqEvent.resp
        ⟨404, false, none, none, "Not Found", ([] : List Nat)⟩)
        (fun _ => 0) 5 1 0 0 [] [] =
      ⟨none, 1, [], [] ++ [.failedGet 404 "Not Found"]⟩ ∧
    githubApiGetInvGo (fun _ => InvEvent.resp
        ⟨500, false, none, none, "boom", ([] : List Nat)⟩)
        (fun _ => 0) 3 0 [] [] =
      ⟨none, 1, [], [] ++ [.requestFailed 500], []⟩ :=
  http_error_log_details_vs_inventory
    (fun _ => ReqEvent.resp ⟨404, false, none, none, "Not Found",
      ([] : List Nat)⟩) (fun _ => 0) 5 0 0 0 [] []
    ⟨404, false, none, none, "Not Found", []⟩
    (by decide) (by decide) (by decide) (by decide) (by decide)
    (fun _ => InvEvent.resp ⟨500, false, none, none, "boom",
      ([] : List Nat)⟩) (fun _ => 0) 2 0 [] []
    ⟨500, false, none, none, "boom", []⟩
    (by decide) (by decide) (by decide) (by decide)

/-- Claim C5, counterexample: in fetch_repo_details_inventory.py, three
consecutive connection failures exhaust the attempt budget and return the
sentinel with increasing delays 1, 2, 4, but not a single entry is appended
to the error log (the logs trace is empty); the failures are only printed.
The claim requires one error-log entry per failed attempt. -/
theorem inv_conn_errors_not_logged :
    githubApiGetInv (fun _ => (InvEvent.connErr "connection reset" :
      InvEvent (List Nat))) (fun _ => 0) =
      ⟨none, 3, [1, 2, 4], [.networkError 1 "connection reset",
        .networkError 2 "connection reset",
        .networkError 3 "connection reset"], []⟩ := by
  rfl

/-- Claim C5, amended: under persistent connection failures, github_api_get
of fetch_repo_details.py makes its 5 bounded attempts with increasing delays
5, 10, 15, 20, 25, appends one error-log entry per failed attempt plus a
final max-retries entry, and returns None instead of raising; github_api_get
of fetch_repo_details_inventory.py makes its 3 bounded attempts with
increasing delays 1, 2, 4 and returns the empty sentinel, but prints one
message per failed attempt instead of appending error-log entries. -/
theorem conn_retry_exhaustion {α β : Type} (env : Nat → ReqEvent α)
    (now : Nat → Int) (msg : Nat → String)
    (he : ∀ j, j < 5 → env j = .connErr (msg j)) (fuel : Nat)
    (hfuel : 6 ≤ fuel)
    (envI : Nat → InvEvent β) (nowI : Nat → Int) (msgI : Nat → String)
    (heI : ∀ j, j < 3 → envI j = .connErr (msgI j)) :
    githubApiGet env now fuel = ⟨none, 5, [5, 10, 15, 20, 25],
      [.connRetry (msg 0) 1 5, .connRetry (msg 1) 2 5, .connRetry (msg 2) 3 5,
       .connRetry (msg 3) 4 5, .connRetry (msg 4) 5 5, .maxRetriesExceeded]⟩ ∧
    githubApiGetInv envI nowI = ⟨none, 3, [1, 2, 4],
      [.networkError 1 (msgI 0), .networkError 2 (msgI 1),
       .networkError 3 (msgI 2)], []⟩ := by
  constructor
  · obtain ⟨f, rfl⟩ : ∃ f, fuel = f + 6 := ⟨fuel - 6, by omega⟩
    unfold githubApiGet
    show githubApiGetGo env now 5 (f + 5 + 1) 0 0 [] [] = _
    rw [githubApiGetGo_connErr_step env now 5 (f + 5) 0 0 [] [] (msg 0)
      (he 0 (by omega)) (by omega)]
    show githubApiGetGo env now 5 (f + 4 + 1) 1 1 _ _ = _
    rw [githubApiGetGo_connErr_step env now 5 (f + 4) 1 1 _ _ (msg 1)
      (he 1 (by omega)) (by omega)]
    show githubApiGetGo env now 5 (f + 3 + 1) 2 2 _ _ = _
    rw [githubApiGetGo_connErr_step env now 5 (f + 3) 2 2 _ _ (msg 2)
      (he 2 (by omega)) (by omega)]
    show githubApiGetGo env now 5 (f + 2 + 1) 3 3 _ _ = _
    rw [githubApiGetGo_connErr_step env now 5 (f + 2) 3 3 _ _ (msg 3)
      (he 3 (by omega)) (by omega)]
    show githubApiGetGo env now 5 (f + 1 + 1) 4 4 _ _ = _
    rw [githubApiGetGo_connErr_step env now 5 (f + 1) 4 4 _ _ (msg 4)
      (he 4 (by omega)) (by omega)]
    show githubApiGetGo env now 5 (f + 1) 5 5 _ _ = _
    rw [githubApiGetGo_exhaust_step env now 5 f 5 5 _ _ (by omega)]
    simp
  · unfold githubApiGetInv
    show githubApiGetInvGo envI nowI (2 + 1) 0 [] [] = _
    rw [githubApiGetInvGo_connErr_step envI nowI 2 0 [] [] (msgI 0)
      (heI 0 (by omega))]
    show githubApiGetInvGo envI nowI (1 + 1) 1 _ _ = _
    rw [githubApiGetInvGo_connErr_step envI nowI 1 1 _ _ (msgI 1)
      (heI 1 (by omega))]
    show githubApiGetInvGo envI nowI (0 + 1) 2 _ _ = _
    rw [githubApiGetInvGo_connErr_step envI nowI 0 2 _ _ (msgI 2)
      (heI 2 (by omega))]
    simp [githubApiGetInvGo]

/-- Claim C5, witness: the exhaustion theorem applied to concrete
environments that fail with a connection error on every attempt. -/
theorem conn_retry_exhaustion_witness :
    githubApiGet (fun _ => (ReqEvent.connErr "peer reset" :
      ReqEvent (List Nat))) (fun _ => 0) 6 = ⟨none, 5, [5, 10, 15, 20, 25],
      [.connRetry "peer reset" 1 5, .connRetry "peer reset" 2 5,
       .connRetry "peer reset" 3 5, .connRetry "peer reset" 4 5,
       .connRetry "peer reset" 5 5, .maxRetriesExceeded]⟩ ∧
    githubApiGetInv (fun _ => (InvEvent.connErr "peer reset" :
      InvEvent (List Nat))) (fun _ => 0) = ⟨none, 3, [1, 2, 4],
      [.networkError 1 "peer reset", .networkError 2 "peer reset",
       .networkError 3 "peer reset"], []⟩ :=
  conn_retry_exhaustion
    (fun _ => (ReqEvent.connErr "peer reset" : ReqEvent (List Nat)))
    (fun _ => 0) (fun _ => "peer reset") (by decide) 6 (by decide)
    (fun _ => (InvEvent.connErr "peer reset" : InvEvent (List Nat)))
    (fun _ => 0) (fun _ => "peer reset") (by decide)

/-- Claim C7, confirmed: the per-repository loop of main writes one row per
successfully aggregated repository, in retrieval order, writes no row for a
repository whose aggregation raised, appends exactly one error-log entry per
failed repository, and continues with the remaining repositories. -/
theorem process_repos_rows_and_logs {ρ σ : Type} (name : ρ → String)
    (agg : ρ → Except String σ) (l : List ρ) :
    (processRepos name agg l).1 = l.filterMap (fun r => (agg r).toOption) ∧
    (processRepos name agg l).2 = l.filterMap (fun r =>
      match agg r with
      | .ok _ => none
      | .error e => some (LogEntry.repoError (name r) e)) := by
  induction l with
  | nil => exact ⟨rfl, rfl⟩
  | cons r rest ih =>
    cases h : agg r with
    | ok row => simp [processRepos, h, ih.1, ih.2, Except.toOption]
    | error e => simp [processRepos, h, ih.1, ih.2, Except.toOption]

/-- Claim C8, counterexample: fetch_repo_details.py does not satisfy the
startup contract.  With the organization set and the token absent it simply
proceeds to the API work (no message, no exit), and with the organization
absent it prints and returns from main, ending the process with exit status
0, not a non-zero status. -/
theorem details_missing_config_not_fatal :
    detailsMainStartup (some "acme") none = .proceed ∧
    detailsMainStartup none (some "token123") =
      .exitWith 0 "ORG_NAME not set in .env file." := by
  constructor <;> rfl

/-- Claim C8, amended: fetch_repo_details_inventory.py and
fetch_repo_list.py print a descriptive message and exit with status 1 before
any API work whenever the organization or token value is absent or empty;
fetch_repo_details.py checks only the organization, and on its absence prints
and returns from main with exit status 0, while an absent token is never
checked and the script proceeds to the API work. -/
theorem startup_checks_by_variant (org token : Option String) :
    (falsyOpt org = true ∨ falsyOpt token = true →
      inventoryStartup org token = .exitWith 1
        "GH_PAT or GH_ORG not set. Please provide them in GitHub Secrets or a .env file." ∧
      listStartup org token = .exitWith 1
        "Error: Please set GH_ORG and GH_PAT as GitHub Secrets or in your .env file.") ∧
    (falsyOpt org = true →
      detailsMainStartup org token =
        .exitWith 0 "ORG_NAME not set in .env file.") ∧
    (falsyOpt org = false → detailsMainStartup org token = .proceed) := by
  refine ⟨?_, ?_, ?_⟩
  · intro h
    constructor
    · unfold inventoryStartup
      rw [if_pos (by rcases h with h | h <;> simp [h])]
    · unfold listStartup
      rw [if_pos (by rcases h with h | h <;> simp [h])]
  · intro h
    unfold detailsMainStartup
    rw [if_pos h]
  · intro h
    unfold detailsMainStartup
    rw [if_neg (by simp [h])]

/-- Claim C8, witness: the startup theorem applied to a run with the
organization absent and the token present, and to a run with both present. -/
theorem startup_checks_by_variant_witness :
    (inventoryStartup none (some "tok") = .exitWith 1
      "GH_PAT or GH_ORG not set. Please provide them in GitHub Secrets or a .env file." ∧
     listStartup none (some "tok") = .exitWith 1
      "Error: Please set GH_ORG and GH_PAT as GitHub Secrets or in your .env file.") ∧
    detailsMainStartup none (some "tok") =
      .exitWith 0 "ORG_NAME not set in .env file." ∧
    detailsMainStartup (some "acme") (some "tok") = .proceed :=
  ⟨(startup_checks_by_variant none (some "tok")).1 (Or.inl (by decide)),
   (startup_checks_by_variant none (some "tok")).2.1 (by decide),
   (startup_checks_by_variant (some "acme") (some "tok")).2.2 (by decide)⟩

/-- Claim C9, confirmed: since the open-PR probe, the closed-PR probe and the
release probe each request a single item (per_page = 1), the Total Open PRs,
Total Closed PRs and Total Releases columns are each 0 or 1 whenever the
remote honours the page size; the Total Merged PRs count, computed by full
pagination of the closed pull requests, can exceed the Total Closed PRs
count, as the final conjunct exhibits. -/
theorem probe_counts_at_most_one
    (op cp rel : Option (List Nat)) (pages : Nat → Option (List Nat))
    (pd : Nat → Option PrDetail) (fuel : Nat)
    (hop : (op.getD []).length ≤ 1)
    (hcp : (cp.getD []).length ≤ 1)
    (hrel : (rel.getD []).length ≤ 1) :
    ((getPrCountsD op cp pages pd fuel).1 = 0 ∨
      (getPrCountsD op cp pages pd fuel).1 = 1) ∧
    ((getPrCountsD op cp pages pd fuel).2.1 = 0 ∨
      (getPrCountsD op cp pages pd fuel).2.1 = 1) ∧
    (totalReleases rel = 0 ∨ totalReleases rel = 1) ∧
    (∃ (op2 cp2 : Option (List Nat)) (pages2 : Nat → Option (List Nat))
      (pd2 : Nat → Option PrDetail) (fuel2 : Nat),
      (getPrCountsD op2 cp2 pages2 pd2 fuel2).2.1 <
        (getPrCountsD op2 cp2 pages2 pd2 fuel2).2.2) := by
  refine ⟨?_, ?_, ?_, ?_⟩
  · rcases op with _ | l
    · exact Or.inl rfl
    · simp only [Option.getD_some] at hop
      rcases l with _ | ⟨a, t⟩
      · exact Or.inl rfl
      · rcases t with _ | ⟨b, t⟩
        · exact Or.inr rfl
        · simp only [List.length_cons] at hop
          omega
  · rcases cp with _ | l
    · exact Or.inl rfl
    · simp only [Option.getD_some] at hcp
      rcases l with _ | ⟨a, t⟩
      · exact Or.inl rfl
      · rcases t with _ | ⟨b, t⟩
        · exact Or.inr rfl
        · simp only [List.length_cons] at hcp
          omega
  · rcases rel with _ | l
    · exact Or.inl rfl
    · simp only [Option.getD_some] at hrel
      rcases l with _ | ⟨a, t⟩
      · exact Or.inl rfl
      · rcases t with _ | ⟨b, t⟩
        · exact Or.inr rfl
        · simp only [List.length_cons] at hrel
          omega
  · exact ⟨some [], some [0], fun p => if p = 1 then some [0, 1] else some [],
      fun _ => some ⟨true⟩, 1, by decide⟩

/-- Claim C9, witness: the probe-count theorem applied to concrete single-item
probe responses. -/
theorem probe_counts_at_most_one_witness :
    ((getPrCountsD (some [3]) (some [4]) (fun _ => some []) (fun _ => none)
        1).1 = 0 ∨
      (getPrCountsD (some [3]) (some [4]) (fun _ => some []) (fun _ => none)
        1).1 = 1) ∧
    ((getPrCountsD (some [3]) (some [4]) (fun _ => some []) (fun _ => none)
        1).2.1 = 0 ∨
      (getPrCountsD (some [3]) (some [4]) (fun _ => some []) (fun _ => none)
        1).2.1 = 1) ∧
    (totalReleases (some ([] : List Nat)) = 0 ∨
      totalReleases (some ([] : List Nat)) = 1) ∧
    (∃ (op2 cp2 : Option (List Nat)) (pages2 : Nat → Option (List Nat))
      (pd2 : Nat → Option PrDetail) (fuel2 : Nat),
      (getPrCountsD op2 cp2 pages2 pd2 fuel2).2.1 <
        (getPrCountsD op2 cp2 pages2 pd2 fuel2).2.2) :=
  probe_counts_at_most_one (some [3]) (some [4]) (some ([] : List Nat))
    (fun _ => some []) (fun _ => none) 1 (by decide) (by decide) (by decide)
